import Mathlib

/-!
# Verification of `StoryboardView` (storyboardView.cpp) and `KoRuler` (KoRuler.h)

A shallow embedding of the two widgets of this Krita fragment:

* `StoryboardView::visualRect` and `StoryboardView::paintEvent` from
  `src/plugins/dockers/storyboarddocker/storyboardView.cpp`, embedded over an
  integer model of Qt's `QRect`/`QPoint` and a two-level model-index type.
* The `KoRuler` hotspot/tab state and its signal surface, modelled from the
  spec and the doc comments of `src/libs/widgets/KoRuler.h` (the
  implementation file is not part of this fragment).

Qt conventions embedded faithfully: a `QRect` stores its left/top/right/bottom
coordinates `x1 y1 x2 y2`; `width = x2 - x1 + 1`, `height = y2 - y1 + 1`;
`setSize` keeps the top-left corner; `moveLeft`/`moveRight` translate
horizontally keeping the size; `setTop` moves only the top edge; a
default-constructed `QRect()` is `(0, 0, -1, -1)`.
-/

/-- Qt's `QPoint`: a pair of integer coordinates. -/
structure QPoint where
  x : Int
  y : Int
deriving DecidableEq, Repr

/-- Pointwise addition, Qt's `QPoint::operator+`. -/
def QPoint.add (p q : QPoint) : QPoint := ⟨p.x + q.x, p.y + q.y⟩

/-- Pointwise subtraction, Qt's `QPoint::operator-`. -/
def QPoint.sub (p q : QPoint) : QPoint := ⟨p.x - q.x, p.y - q.y⟩

/-- Qt's `QRect`, stored as in Qt: left `x1`, top `y1`, right `x2`, bottom `y2`. -/
structure QRect where
  x1 : Int
  y1 : Int
  x2 : Int
  y2 : Int
deriving DecidableEq, Repr

namespace QRect

/-- A default-constructed `QRect()`: Qt stores `(0, 0, -1, -1)`. -/
def nullRect : QRect := ⟨0, 0, -1, -1⟩

/-- `QRect::width` = `x2 - x1 + 1`. -/
def width (r : QRect) : Int := r.x2 - r.x1 + 1

/-- `QRect::height` = `y2 - y1 + 1`. -/
def height (r : QRect) : Int := r.y2 - r.y1 + 1

/-- `QRect::topLeft`. -/
def topLeft (r : QRect) : QPoint := ⟨r.x1, r.y1⟩

/-- `QRect::bottomRight`. -/
def bottomRight (r : QRect) : QPoint := ⟨r.x2, r.y2⟩

/-- `QRect::left`. -/
def left (r : QRect) : Int := r.x1

/-- `QRect::top`. -/
def top (r : QRect) : Int := r.y1

/-- `QRect::right`. -/
def right (r : QRect) : Int := r.x2

/-- `QRect::bottom`. -/
def bottom (r : QRect) : Int := r.y2

/-- `QRect::setTopLeft`: sets `x1` and `y1`, leaving the bottom-right corner. -/
def setTopLeft (r : QRect) (p : QPoint) : QRect := ⟨p.x, p.y, r.x2, r.y2⟩

/-- `QRect::setBottomRight`: sets `x2` and `y2`, leaving the top-left corner. -/
def setBottomRight (r : QRect) (p : QPoint) : QRect := ⟨r.x1, r.y1, p.x, p.y⟩

/-- `QRect::setSize(w, h)`: keeps the top-left corner, `x2 = x1 + w - 1`,
`y2 = y1 + h - 1`. -/
def setSize (r : QRect) (w h : Int) : QRect :=
  ⟨r.x1, r.y1, r.x1 + w - 1, r.y1 + h - 1⟩

/-- `QRect::translate(dx, dy)`: shifts all four coordinates. -/
def translate (r : QRect) (dx dy : Int) : QRect :=
  ⟨r.x1 + dx, r.y1 + dy, r.x2 + dx, r.y2 + dy⟩

/-- `QRect::moveLeft(x)`: moves the rectangle horizontally so its left edge is
`x`, keeping the size. -/
def moveLeft (r : QRect) (x : Int) : QRect :=
  ⟨x, r.y1, r.x2 + (x - r.x1), r.y2⟩

/-- `QRect::moveRight(x)`: moves the rectangle horizontally so its right edge
is `x`, keeping the size. -/
def moveRight (r : QRect) (x : Int) : QRect :=
  ⟨r.x1 + (x - r.x2), r.y1, x, r.y2⟩

/-- `QRect::setTop(y)`: moves only the top edge. -/
def setTop (r : QRect) (y : Int) : QRect := ⟨r.x1, y, r.x2, r.y2⟩

/-- Pixel membership: the point `(px, py)` lies in the rectangle. An inverted
(empty) rectangle contains no point. -/
def containsPt (r : QRect) (px py : Int) : Prop :=
  r.x1 ≤ px ∧ px ≤ r.x2 ∧ r.y1 ≤ py ∧ py ≤ r.y2

instance (r : QRect) (px py : Int) : Decidable (r.containsPt px py) := by
  unfold containsPt; infer_instance

/-- Coordinate containment: `r` lies entirely within `p`. -/
def within (r p : QRect) : Prop :=
  p.x1 ≤ r.x1 ∧ r.x2 ≤ p.x2 ∧ p.y1 ≤ r.y1 ∧ r.y2 ≤ p.y2

instance (r p : QRect) : Decidable (r.within p) := by
  unfold within; infer_instance

/-- Two rectangles are disjoint when no pixel lies in both. -/
def disjoint (r s : QRect) : Prop :=
  ∀ px py : Int, ¬ (r.containsPt px py ∧ s.containsPt px py)

end QRect

/-- A model index of the (two-level) storyboard model: invalid, a top-level
index `top row` (column 0), or a child index `child parentRow childRow`
(column 0) whose parent is `top parentRow`. -/
inductive MIdx where
  | invalid
  | top (row : Nat)
  | child (prow : Nat) (crow : Nat)
deriving DecidableEq, Repr

namespace MIdx

/-- `QModelIndex::isValid`. -/
def isValid : MIdx → Bool
  | .invalid => false
  | .top _ => true
  | .child _ _ => true

/-- `QModelIndex::parent`: the parent of a child index is its top-level index;
the parent of a top-level index (and of the invalid index) is invalid. -/
def parent : MIdx → MIdx
  | .child p _ => .top p
  | _ => .invalid

/-- `QModelIndex::row` (0 for the invalid index). -/
def row : MIdx → Nat
  | .invalid => 0
  | .top r => r
  | .child _ c => c

/-- Nesting depth, used as the termination measure of `visualRect`:
the recursion steps from a child index to its top-level parent. -/
def depth : MIdx → Nat
  | .child _ _ => 1
  | _ => 0

end MIdx

/-- The view state `StoryboardView::visualRect` reads: the font metrics of the
widget (`fontMetrics().height()` and `fontMetrics().width("0")`) and the
base-class geometry `QListView::visualRect`. -/
structure ViewState where
  fmHeight : Nat
  numericFontWidth : Nat
  baseRect : MIdx → QRect

/-- `StoryboardView::visualRect` (storyboardView.cpp lines 81–134): for an
invalid index or an index with an invalid parent, the base-class
`QListView::visualRect`; otherwise the child rectangle computed from the
recursively obtained parent rectangle, inset by 5 pixels on each side, by a
switch on the child's row. -/
def visualRect (st : ViewState) (index : MIdx) : QRect :=
  if !index.isValid || !index.parent.isValid then
    st.baseRect index
  else
    let parentRect0 := visualRect st index.parent
    let parentRect1 := parentRect0.setTopLeft (parentRect0.topLeft.add ⟨5, 5⟩)
    let parentRect := parentRect1.setBottomRight (parentRect1.bottomRight.sub ⟨5, 5⟩)
    let fontHeight : Int := (st.fmHeight : Int) + 3
    let numericFontWidth : Int := (st.numericFontWidth : Int)
    let width := parentRect.width
    let childRow := index.row
    match childRow with
    | 0 =>
        -- the frame thumbnail rect
        (parentRect.setSize width 120).translate 0 fontHeight
    | 1 =>
        let itemNameRect := parentRect.setSize (width - (10 * numericFontWidth + 6)) fontHeight
        itemNameRect.moveLeft (parentRect.left + 3 * numericFontWidth + 2)
    | 2 =>
        let secondRect := parentRect.setSize (4 * numericFontWidth + 2) fontHeight
        secondRect.moveRight (parentRect.right - 3 * numericFontWidth - 2)
    | 3 =>
        let frameRect := parentRect.setSize (3 * numericFontWidth + 2) fontHeight
        frameRect.moveRight parentRect.right
    | _ + 4 =>
        -- comment rect
        parentRect.setTop (parentRect.top + 120 + fontHeight)
termination_by index.depth
decreasing_by
  cases index <;> simp_all [MIdx.isValid, MIdx.parent, MIdx.depth]

/-- On the invalid index `visualRect` takes the guard branch. -/
theorem visualRect_invalid (st : ViewState) :
    visualRect st .invalid = st.baseRect .invalid := by
  rw [visualRect]
  simp [MIdx.isValid, MIdx.parent]

/-- On a top-level index (whose parent is invalid) `visualRect` takes the
guard branch. -/
theorem visualRect_top (st : ViewState) (r : Nat) :
    visualRect st (.top r) = st.baseRect (.top r) := by
  rw [visualRect]
  simp [MIdx.isValid, MIdx.parent]

/-- Closed form of `visualRect` on child row 0 (the thumbnail rectangle). -/
theorem visualRect_child0 (st : ViewState) (p : Nat) :
    visualRect st (.child p 0) =
      let P := st.baseRect (.top p)
      let fh : Int := (st.fmHeight : Int) + 3
      ⟨P.x1 + 5, P.y1 + 5 + fh, P.x2 - 5, P.y1 + fh + 124⟩ := by
  rw [visualRect]
  simp [MIdx.isValid, MIdx.parent, MIdx.row, visualRect_top, QRect.setTopLeft,
    QRect.setBottomRight, QRect.topLeft, QRect.bottomRight, QPoint.add, QPoint.sub,
    QRect.setSize, QRect.translate, QRect.width]
  constructor <;> ring

/-- Closed form of `visualRect` on child row 1 (the item name rectangle). -/
theorem visualRect_child1 (st : ViewState) (p : Nat) :
    visualRect st (.child p 1) =
      let P := st.baseRect (.top p)
      let fh : Int := (st.fmHeight : Int) + 3
      let n : Int := (st.numericFontWidth : Int)
      ⟨P.x1 + 3 * n + 7, P.y1 + 5, P.x2 - 7 * n - 9, P.y1 + fh + 4⟩ := by
  rw [visualRect]
  simp [MIdx.isValid, MIdx.parent, MIdx.row, visualRect_top, QRect.setTopLeft,
    QRect.setBottomRight, QRect.topLeft, QRect.bottomRight, QPoint.add, QPoint.sub,
    QRect.setSize, QRect.moveLeft, QRect.left, QRect.width]
  and_intros <;> first | trivial | ring1

/-- Closed form of `visualRect` on child row 2 (first numeric-field rectangle). -/
theorem visualRect_child2 (st : ViewState) (p : Nat) :
    visualRect st (.child p 2) =
      let P := st.baseRect (.top p)
      let fh : Int := (st.fmHeight : Int) + 3
      let n : Int := (st.numericFontWidth : Int)
      ⟨P.x2 - 7 * n - 8, P.y1 + 5, P.x2 - 3 * n - 7, P.y1 + fh + 4⟩ := by
  rw [visualRect]
  simp [MIdx.isValid, MIdx.parent, MIdx.row, visualRect_top, QRect.setTopLeft,
    QRect.setBottomRight, QRect.topLeft, QRect.bottomRight, QPoint.add, QPoint.sub,
    QRect.setSize, QRect.moveRight, QRect.right, QRect.width]
  and_intros <;> first | trivial | ring1

/-- Closed form of `visualRect` on child row 3 (second numeric-field rectangle). -/
theorem visualRect_child3 (st : ViewState) (p : Nat) :
    visualRect st (.child p 3) =
      let P := st.baseRect (.top p)
      let fh : Int := (st.fmHeight : Int) + 3
      let n : Int := (st.numericFontWidth : Int)
      ⟨P.x2 - 3 * n - 6, P.y1 + 5, P.x2 - 5, P.y1 + fh + 4⟩ := by
  rw [visualRect]
  simp [MIdx.isValid, MIdx.parent, MIdx.row, visualRect_top, QRect.setTopLeft,
    QRect.setBottomRight, QRect.topLeft, QRect.bottomRight, QPoint.add, QPoint.sub,
    QRect.setSize, QRect.moveRight, QRect.right, QRect.width]
  and_intros <;> first | trivial | ring1

/-- Closed form of `visualRect` on child rows ≥ 4 (the comment rectangle). -/
theorem visualRect_child_ge4 (st : ViewState) (p c : Nat) :
    visualRect st (.child p (c + 4)) =
      let P := st.baseRect (.top p)
      let fh : Int := (st.fmHeight : Int) + 3
      ⟨P.x1 + 5, P.y1 + fh + 125, P.x2 - 5, P.y2 - 5⟩ := by
  rw [visualRect]
  simp [MIdx.isValid, MIdx.parent, MIdx.row, visualRect_top, QRect.setTopLeft,
    QRect.setBottomRight, QRect.topLeft, QRect.bottomRight, QPoint.add, QPoint.sub,
    QRect.setTop, QRect.top]
  ring

/-- The model state `StoryboardView::paintEvent` reads: `model()->rowCount()`
and, per top-level index, `model()->rowCount(index)`. -/
structure ModelState where
  rowCount : Nat
  childCount : Nat → Nat

/-- The selection-model state read by `paintEvent`:
`selectionModel()->isSelected` and `selectionModel()->currentIndex()`. -/
structure SelectionState where
  isSelected : MIdx → Bool
  currentIndex : MIdx

/-- The parts of `QStyleOptionViewItem` that `paintEvent` sets: the
`State_Selected` and `State_HasFocus` flags of `option.state`, and
`option.rect`. -/
structure StyleOption where
  selected : Bool
  hasFocus : Bool
  rect : QRect
deriving DecidableEq, Repr

/-- One call of `itemDelegate()->paint(&painter, option, childIndex)`. -/
structure PaintCall where
  index : MIdx
  option : StyleOption
deriving DecidableEq, Repr

/-- `StoryboardView::paintEvent` (storyboardView.cpp lines 49–79), as the
sequence of delegate paint calls issued after the base-class
`QListView::paintEvent`: the outer loop walks the top-level rows, the inner
loop walks the child rows of each top-level index; for each child the style
option gets `State_Selected` iff the parent index is selected,
`State_HasFocus` iff the parent index is the current index, and
`option.rect = visualRect(childIndex)`. -/
def paintEvent (st : ViewState) (m : ModelState) (sel : SelectionState) :
    List PaintCall :=
  (List.range m.rowCount).flatMap fun row =>
    (List.range (m.childCount row)).map fun childRow =>
      let index := MIdx.top row
      let childIndex := MIdx.child row childRow
      { index := childIndex,
        option :=
          { selected := sel.isSelected index,
            hasFocus := index == sel.currentIndex,
            rect := visualRect st childIndex } }

/-- The child rectangle exactly as the spec words it: the inset parent
rectangle is the parent rectangle inset by 5 pixels on each side; row 0 is the
inset rectangle resized to height 120 and translated down by
`fontHeight = font height + 3`; row 1 has width `inset width -
(10*numericFontWidth + 6)`, height `fontHeight`, left edge at `inset left +
3*numericFontWidth + 2`; row 2 has width `4*numericFontWidth + 2`,
right-aligned at `inset right - 3*numericFontWidth - 2`; row 3 has width
`3*numericFontWidth + 2`, right-aligned at the inset right edge; every row ≥ 4
is the inset rectangle with its top moved down by `120 + fontHeight`. -/
def specChildRect (fmHeight numericFontWidth : Nat) (parentRect : QRect)
    (childRow : Nat) : QRect :=
  let inset : QRect :=
    ⟨parentRect.x1 + 5, parentRect.y1 + 5, parentRect.x2 - 5, parentRect.y2 - 5⟩
  let fontHeight : Int := (fmHeight : Int) + 3
  let n : Int := (numericFontWidth : Int)
  match childRow with
  | 0 => ⟨inset.x1, inset.y1 + fontHeight, inset.x2, inset.y1 + fontHeight + 119⟩
  | 1 =>
      let leftEdge := inset.left + 3 * n + 2
      ⟨leftEdge, inset.y1, leftEdge + (inset.width - (10 * n + 6)) - 1,
        inset.y1 + fontHeight - 1⟩
  | 2 =>
      let rightEdge := inset.right - 3 * n - 2
      ⟨rightEdge - (4 * n + 2) + 1, inset.y1, rightEdge, inset.y1 + fontHeight - 1⟩
  | 3 =>
      ⟨inset.right - (3 * n + 2) + 1, inset.y1, inset.right, inset.y1 + fontHeight - 1⟩
  | _ + 4 => ⟨inset.x1, inset.y1 + 120 + fontHeight, inset.x2, inset.y2⟩

/-- `Qt::Orientation`. -/
inductive QtOrientation where
  | horizontal
  | vertical
deriving DecidableEq, Repr

/-- `QTextOption::TabType`. -/
inductive TabType where
  | leftTab
  | rightTab
  | centerTab
  | delimiterTab
deriving DecidableEq, Repr

/-- `KoRuler::Tab` (KoRuler.h lines 43–46): a tab definition, position in
points from the start of the text shape plus its type. `qreal` positions are
modelled as rationals. -/
structure Tab where
  position : Rat
  type : TabType
deriving DecidableEq, Repr

/-- One entry of the `KoRuler` hotspot list: a draggable position with its
unique id (`setHotSpot(qreal position, int id)`). -/
structure HotSpot where
  id : Int
  position : Rat
deriving DecidableEq, Repr

/-- Modelled from the spec: the part of the `KoRulerPrivate` state bag the
claims touch — the hotspot list and the tab list (with the regular tab
distance). The implementation file `KoRuler.cpp` is not part of this
fragment; the state is taken from the spec's description of the private
implementation block and the doc comments in `KoRuler.h`. -/
structure RulerState where
  hotSpots : List HotSpot
  tabs : List Tab
  tabDistance : Rat
deriving DecidableEq, Repr

/-- A fresh ruler holds no hotspots and no tabs. -/
def initialRulerState : RulerState := ⟨[], [], 0⟩

/-- Modelled from the spec: `KoRuler::setHotSpot(position, id)` — "Add or set
a hotspot. … If the id has not been set before, it will be added." If a
hotspot with this id is already in the list its position is updated,
otherwise a new hotspot with this id is appended. -/
def setHotSpot (s : RulerState) (position : Rat) (id : Int) : RulerState :=
  if s.hotSpots.any (fun h => h.id == id) then
    { s with hotSpots :=
        s.hotSpots.map fun h =>
          if h.id == id then { h with position := position } else h }
  else
    { s with hotSpots := s.hotSpots ++ [⟨id, position⟩] }

/-- Modelled from the spec: `KoRuler::removeHotSpot(id)` — "Remove a
previously set hotspot"; drops the hotspot with the given id. -/
def removeHotSpot (s : RulerState) (id : Int) : RulerState :=
  { s with hotSpots := s.hotSpots.filter fun h => h.id != id }

/-- Modelled from the spec: `KoRuler::clearHotSpots` — "Clear all previously
set hotspots." -/
def clearHotSpots (s : RulerState) : RulerState :=
  { s with hotSpots := [] }

/-- Modelled from the spec: `KoRuler::updateTabs(tabs, tabDistance)` —
replaces the list of tabs shown on the ruler and the regular tab distance;
the hotspot list is untouched. -/
def updateTabs (s : RulerState) (tabs : List Tab) (tabDistance : Rat) :
    RulerState :=
  { s with tabs := tabs, tabDistance := tabDistance }

/-- The state-mutating `KoRuler` calls the uniqueness claim quantifies over. -/
inductive RulerOp where
  | setHotSpot (position : Rat) (id : Int)
  | removeHotSpot (id : Int)
  | clearHotSpots
  | updateTabs (tabs : List Tab) (tabDistance : Rat)
deriving DecidableEq, Repr

/-- Apply one `KoRuler` call to the ruler state. -/
def applyOp (s : RulerState) : RulerOp → RulerState
  | .setHotSpot position id => setHotSpot s position id
  | .removeHotSpot id => removeHotSpot s id
  | .clearHotSpots => clearHotSpots s
  | .updateTabs tabs tabDistance => updateTabs s tabs tabDistance

/-- Run a sequence of `KoRuler` calls from the fresh ruler state. -/
def runOps (ops : List RulerOp) : RulerState :=
  ops.foldl applyOp initialRulerState

/-- The uniqueness invariant: no two hotspots in the list share an id. -/
def hotSpotIdsUnique (s : RulerState) : Prop :=
  (s.hotSpots.map HotSpot.id).Nodup

instance (s : RulerState) : Decidable (hotSpotIdsUnique s) := by
  unfold hotSpotIdsUnique; infer_instance

/-- Modelled from the spec: the user interactions and plain calls the signal
claim distinguishes — drags of indents, tabs and hotspots, the drag-release
outside the ruler that creates a guide line, and mere accessor/mutator calls. -/
inductive RulerInteraction where
  | dragIndent (final : Bool)
  | dragMoveTab (originalTabIndex : Int) (tab : Tab)
  | dragDeleteTab (originalTabIndex : Int)
  | dragInsertTab (tab : Tab)
  | dragHotSpot (id : Int) (newPosition : Rat)
  | dragReleaseOutsideRuler (o : QtOrientation) (viewPosition : Rat)
  | accessorOrMutatorCall (op : RulerOp)
deriving DecidableEq, Repr

/-- The notification signals of `KoRuler` (KoRuler.h lines 231–255) that the
claim names. `tabChanged` carries the original tab index (−1 for a new tab)
and the new tab (`none` when the tab has been removed). -/
inductive RulerSignal where
  | indentsChanged (final : Bool)
  | tabChanged (originalTabIndex : Int) (tab : Option Tab)
  | hotSpotChanged (id : Int) (newPosition : Rat)
  | guideLineCreated (o : QtOrientation) (viewPosition : Rat)
deriving DecidableEq, Repr

/-- Modelled from the spec: the signals `KoRuler` emits on each interaction —
"emits notification signals when user drag interactions change tabs, indents,
or hotspots, or when a guide line is created by dragging off the ruler"; a
mere accessor/mutator call emits nothing. -/
def emittedSignals : RulerInteraction → List RulerSignal
  | .dragIndent final => [.indentsChanged final]
  | .dragMoveTab i t => [.tabChanged i (some t)]
  | .dragDeleteTab i => [.tabChanged i none]
  | .dragInsertTab t => [.tabChanged (-1) (some t)]
  | .dragHotSpot id newPosition => [.hotSpotChanged id newPosition]
  | .dragReleaseOutsideRuler o v => [.guideLineCreated o v]
  | .accessorOrMutatorCall _ => []

/-- C2: for every valid child index, `StoryboardView::visualRect` selects the
result purely by the child's row number via a fixed switch, and the rectangle
of each row is exactly the one the claim describes (row 0 the thumbnail
rectangle, row 1 the name rectangle, rows 2 and 3 the numeric-field
rectangles, every row ≥ 4 the comment rectangle), with
`fontHeight = font height + 3` and all insets as stated. -/
theorem visualRect_child_matches_spec (st : ViewState) (p c : Nat) :
    visualRect st (.child p c) =
      specChildRect st.fmHeight st.numericFontWidth (visualRect st (.top p)) c := by
  rcases c with _ | _ | _ | _ | c
  · rw [visualRect_child0]
    simp [specChildRect, visualRect_top]
    ring
  · rw [visualRect_child1]
    simp [specChildRect, visualRect_top, QRect.left, QRect.width]
    and_intros <;> first | trivial | ring1
  · rw [visualRect_child2]
    simp [specChildRect, visualRect_top, QRect.right]
    and_intros <;> first | trivial | ring1
  · rw [visualRect_child3]
    simp [specChildRect, visualRect_top, QRect.right]
    and_intros <;> first | trivial | ring1
  · rw [visualRect_child_ge4]
    simp [specChildRect, visualRect_top]
    ring

/-- A view state with a small base geometry: every base rectangle is 10×10,
the font is 10 pixels high and the digit is 5 pixels wide. -/
def cexViewState : ViewState := ⟨10, 5, fun _ => ⟨0, 0, 9, 9⟩⟩

/-- C1 (counterexample): with a 10×10 parent rectangle the thumbnail rectangle
of child row 0 sticks out of its parent (its bottom is 137 while the parent's
bottom is 9), so `visualRect` of a child does not in general lie within
`visualRect` of its parent. -/
theorem visualRect_child_not_within_parent_cex :
    ¬ QRect.within (visualRect cexViewState (.child 0 0))
        (visualRect cexViewState (.top 0)) := by
  rw [visualRect_child0, visualRect_top]
  decide

/-- C1 (amended): for every valid child index, `visualRect` returns a
rectangle lying entirely within the parent's rectangle, provided the parent
rectangle is tall enough for the fixed 120-pixel thumbnail plus the font
height (bottom − top ≥ fontHeight + 124, i.e. ≥ font height + 127) and wide
enough for the numeric fields (right − left ≥ 7·numericFontWidth + 8). -/
theorem visualRect_child_within_parent (st : ViewState) (p c : Nat)
    (hH : (st.baseRect (.top p)).y1 + (st.fmHeight : Int) + 127 ≤
        (st.baseRect (.top p)).y2)
    (hW : (st.baseRect (.top p)).x1 + 7 * (st.numericFontWidth : Int) + 8 ≤
        (st.baseRect (.top p)).x2) :
    QRect.within (visualRect st (.child p c)) (visualRect st (.top p)) := by
  rcases c with _ | _ | _ | _ | c
  · rw [visualRect_child0, visualRect_top]
    simp only [QRect.within]
    omega
  · rw [visualRect_child1, visualRect_top]
    simp only [QRect.within]
    omega
  · rw [visualRect_child2, visualRect_top]
    simp only [QRect.within]
    omega
  · rw [visualRect_child3, visualRect_top]
    simp only [QRect.within]
    omega
  · rw [visualRect_child_ge4, visualRect_top]
    simp only [QRect.within]
    omega

/-- A view state whose base rectangles are 201×201, large enough for the
child layout (font height 10, digit width 5). -/
def sampleViewState : ViewState := ⟨10, 5, fun _ => ⟨0, 0, 200, 200⟩⟩

/-- Witness for the amended C1 at a concrete large parent rectangle. -/
theorem visualRect_child_within_parent_witness :
    ((sampleViewState.baseRect (.top 0)).y1 + (sampleViewState.fmHeight : Int) + 127 ≤
        (sampleViewState.baseRect (.top 0)).y2 ∧
      (sampleViewState.baseRect (.top 0)).x1 +
          7 * (sampleViewState.numericFontWidth : Int) + 8 ≤
        (sampleViewState.baseRect (.top 0)).x2) ∧
    QRect.within (visualRect sampleViewState (.child 0 0))
      (visualRect sampleViewState (.top 0)) :=
  ⟨⟨by decide, by decide⟩,
    visualRect_child_within_parent sampleViewState 0 0 (by decide) (by decide)⟩

/-- A view state whose base geometry returns the default `QRect()` (as
`QListView::visualRect` does on an invalid index). -/
def nullBaseViewState : ViewState := ⟨10, 5, fun _ => QRect.nullRect⟩

/-- C4: for every invalid model index `visualRect` takes the guard branch and
returns the base-class `QListView::visualRect` value, none of the
child-geometry branches; with the toolkit invariant that the base class
returns the default (null) rectangle on an invalid index, the result is the
null rectangle. -/
theorem visualRect_invalid_returns_base (st : ViewState) (i : MIdx)
    (hi : i.isValid = false) (hbase : st.baseRect i = QRect.nullRect) :
    visualRect st i = st.baseRect i ∧ visualRect st i = QRect.nullRect := by
  cases i with
  | invalid => exact ⟨visualRect_invalid st, (visualRect_invalid st).trans hbase⟩
  | top r => simp [MIdx.isValid] at hi
  | child p c => simp [MIdx.isValid] at hi

/-- Witness for C4 at the invalid index of a view whose base geometry is the
null rectangle. -/
theorem visualRect_invalid_returns_base_witness :
    (MIdx.invalid.isValid = false ∧
      nullBaseViewState.baseRect .invalid = QRect.nullRect) ∧
    (visualRect nullBaseViewState .invalid = nullBaseViewState.baseRect .invalid ∧
      visualRect nullBaseViewState .invalid = QRect.nullRect) :=
  ⟨⟨rfl, rfl⟩, visualRect_invalid_returns_base nullBaseViewState .invalid rfl rfl⟩

/-- C5: `visualRect` is deterministic and side-effect free. The C++ method is
`const` and mutates only its local rectangle copies, which the embedding
reflects by `visualRect` being a pure function of the view state that returns
only the rectangle; two calls on view states with the same font metrics and
the same base-class geometry return equal rectangles. -/
theorem visualRect_deterministic (st1 st2 : ViewState) (i : MIdx)
    (hf : st1.fmHeight = st2.fmHeight)
    (hn : st1.numericFontWidth = st2.numericFontWidth)
    (hb : st1.baseRect = st2.baseRect) :
    visualRect st1 i = visualRect st2 i := by
  cases st1
  cases st2
  simp only at hf hn hb
  subst hf hn hb
  rfl

/-- Witness for C5: two structurally equal view states yield the same
rectangle for a concrete child index. -/
theorem visualRect_deterministic_witness :
    visualRect sampleViewState (.child 0 2) = visualRect sampleViewState (.child 0 2) :=
  visualRect_deterministic sampleViewState sampleViewState (.child 0 2) rfl rfl rfl

/-- C8: for every valid top-level index (valid index with invalid parent)
`visualRect` takes the guard branch and returns exactly the base-class
`QListView::visualRect` value, never the custom child geometry. -/
theorem visualRect_toplevel_returns_base (st : ViewState) (i : MIdx)
    (hv : i.isValid = true) (hp : i.parent.isValid = false) :
    visualRect st i = st.baseRect i := by
  cases i with
  | invalid => simp [MIdx.isValid] at hv
  | top r => exact visualRect_top st r
  | child p c => simp [MIdx.parent, MIdx.isValid] at hp

/-- Witness for C8 at the concrete top-level index of row 0. -/
theorem visualRect_toplevel_returns_base_witness :
    ((MIdx.top 0).isValid = true ∧ (MIdx.top 0).parent.isValid = false) ∧
    visualRect sampleViewState (.top 0) = sampleViewState.baseRect (.top 0) :=
  ⟨⟨rfl, rfl⟩, visualRect_toplevel_returns_base sampleViewState (.top 0) rfl rfl⟩

/-- C6: for child rows 1, 2 and 3 of the same parent, the three rectangles
have the same height `fontHeight`, the same top edge (the inset parent top),
are pairwise disjoint, sit horizontally adjacent in the order row 1, row 2,
row 3, and the row-3 rectangle ends at the inset parent right edge. -/
theorem visualRect_rows123_layout (st : ViewState) (p : Nat) :
    let P := visualRect st (.top p)
    let r1 := visualRect st (.child p 1)
    let r2 := visualRect st (.child p 2)
    let r3 := visualRect st (.child p 3)
    let fontHeight : Int := (st.fmHeight : Int) + 3
    (r1.height = fontHeight ∧ r2.height = fontHeight ∧ r3.height = fontHeight) ∧
    (r1.top = P.top + 5 ∧ r2.top = P.top + 5 ∧ r3.top = P.top + 5) ∧
    (QRect.disjoint r1 r2 ∧ QRect.disjoint r1 r3 ∧ QRect.disjoint r2 r3) ∧
    (r2.left = r1.right + 1 ∧ r3.left = r2.right + 1) ∧
    r3.right = P.right - 5 := by
  rw [visualRect_child1, visualRect_child2, visualRect_child3, visualRect_top]
  simp only [QRect.height, QRect.top, QRect.left, QRect.right, QRect.disjoint,
    QRect.containsPt]
  and_intros <;>
    first
      | trivial
      | ring1
      | (intro px py h; omega)

/-- The indices `paintEvent` hands to the delegate, in order. -/
theorem paintEvent_indices (st : ViewState) (m : ModelState) (sel : SelectionState) :
    (paintEvent st m sel).map PaintCall.index =
      (List.range m.rowCount).flatMap fun r =>
        (List.range (m.childCount r)).map fun c => MIdx.child r c := by
  simp only [paintEvent, List.map_flatMap, List.map_map]
  rfl

/-- The indices painted by `paintEvent` are pairwise distinct. -/
theorem paintEvent_indices_nodup (st : ViewState) (m : ModelState)
    (sel : SelectionState) :
    ((paintEvent st m sel).map PaintCall.index).Nodup := by
  rw [paintEvent_indices]
  rw [List.nodup_flatMap]
  constructor
  · intro r _
    exact (List.nodup_range _).map fun c c' h => by injection h
  · refine (List.pairwise_lt_range _).imp ?_
    intro r r' hlt
    intro i hi hi'
    simp only [List.mem_map, List.mem_range] at hi hi'
    obtain ⟨c, _, rfl⟩ := hi
    obtain ⟨c', _, h⟩ := hi'
    injection h with h1 h2
    omega

/-- C3: after the base-class painting, `paintEvent` calls the delegate once
per (top-level row, child row) pair in range and for no other index, always
with the option rectangle set to `visualRect` of the child index: every
delegate call is on an in-range child index with that rectangle, and the
painted index list counts each in-range child index exactly once and every
other index zero times. -/
theorem paintEvent_paints_each_child_once (st : ViewState) (m : ModelState)
    (sel : SelectionState) :
    (∀ pc ∈ paintEvent st m sel,
        pc.option.rect = visualRect st pc.index ∧
        ∃ r c, pc.index = .child r c ∧ r < m.rowCount ∧ c < m.childCount r) ∧
    ∀ r c, ((paintEvent st m sel).map PaintCall.index).count (.child r c) =
      if r < m.rowCount ∧ c < m.childCount r then 1 else 0 := by
  constructor
  · intro pc hpc
    simp only [paintEvent, List.mem_flatMap, List.mem_map, List.mem_range] at hpc
    obtain ⟨r, hr, c, hc, rfl⟩ := hpc
    exact ⟨rfl, r, c, rfl, hr, hc⟩
  · intro r c
    have hmem : MIdx.child r c ∈ (paintEvent st m sel).map PaintCall.index ↔
        r < m.rowCount ∧ c < m.childCount r := by
      rw [paintEvent_indices]
      simp only [List.mem_flatMap, List.mem_map, List.mem_range]
      constructor
      · rintro ⟨r', hr', c', hc', h⟩
        injection h with h1 h2
        subst h1
        subst h2
        exact ⟨hr', hc'⟩
      · rintro ⟨hr, hc⟩
        exact ⟨r, hr, c, hc, rfl⟩
    split
    case isTrue h =>
      exact List.count_eq_one_of_mem (paintEvent_indices_nodup st m sel)
        (hmem.mpr h)
    case isFalse h =>
      exact List.count_eq_zero_of_not_mem fun hm => h (hmem.mp hm)

/-- A one-item model with one child row. -/
def sampleModel : ModelState := ⟨1, fun _ => 1⟩

/-- A selection state with everything selected and the first top-level index
current. -/
def sampleSelection : SelectionState := ⟨fun _ => true, .top 0⟩

/-- Witness for C3: in the one-item model the index (0, 0) is painted exactly
once. -/
theorem paintEvent_paints_each_child_once_witness :
    ((paintEvent sampleViewState sampleModel sampleSelection).map
        PaintCall.index).count (.child 0 0) =
      if 0 < sampleModel.rowCount ∧ 0 < sampleModel.childCount 0 then 1 else 0 :=
  (paintEvent_paints_each_child_once sampleViewState sampleModel
    sampleSelection).2 0 0

/-- C7: when `paintEvent` paints a child index, `State_Selected` is set iff
the child's top-level parent is selected in the selection model and
`State_HasFocus` is set iff that parent equals the selection model's current
index; the child's own selection/focus state is never consulted (two
selection states agreeing on the top-level indices and the current index
produce identical paint calls). -/
theorem paintEvent_flags_from_parent (st : ViewState) (m : ModelState)
    (sel : SelectionState) :
    (∀ pc ∈ paintEvent st m sel, ∀ r c, pc.index = .child r c →
        pc.option.selected = sel.isSelected (.top r) ∧
        pc.option.hasFocus = (MIdx.top r == sel.currentIndex)) ∧
    (∀ sel' : SelectionState,
        (∀ r, sel'.isSelected (.top r) = sel.isSelected (.top r)) →
        sel'.currentIndex = sel.currentIndex →
        paintEvent st m sel' = paintEvent st m sel) := by
  constructor
  · intro pc hpc r c hidx
    simp only [paintEvent, List.mem_flatMap, List.mem_map, List.mem_range] at hpc
    obtain ⟨r', _, c', _, rfl⟩ := hpc
    simp only at hidx
    injection hidx with h1 h2
    subst h1
    exact ⟨rfl, rfl⟩
  · intro sel' hsel hcur
    simp only [paintEvent, hsel, hcur]

/-- The single delegate call of the one-item sample model. -/
def samplePaintCall : PaintCall :=
  { index := .child 0 0,
    option :=
      { selected := true, hasFocus := true,
        rect := visualRect sampleViewState (.child 0 0) } }

/-- In the sample setup `paintEvent` issues exactly the sample call. -/
theorem samplePaintEvent_eq :
    paintEvent sampleViewState sampleModel sampleSelection = [samplePaintCall] := rfl

/-- Witness for C7: in the sample setup the painted child (0, 0) carries the
flags of its parent, which is selected and current. -/
theorem paintEvent_flags_from_parent_witness :
    samplePaintCall ∈ paintEvent sampleViewState sampleModel sampleSelection ∧
    samplePaintCall.option.selected = sampleSelection.isSelected (.top 0) ∧
    samplePaintCall.option.hasFocus = (MIdx.top 0 == sampleSelection.currentIndex) :=
  have hm : samplePaintCall ∈ paintEvent sampleViewState sampleModel sampleSelection :=
    samplePaintEvent_eq ▸ List.mem_singleton_self _
  ⟨hm, (paintEvent_flags_from_parent sampleViewState sampleModel
    sampleSelection).1 samplePaintCall hm 0 0 rfl⟩

/-- Witness for C6: at the concrete sample view the row-1 and row-2
rectangles share no pixel, here checked at the point (0, 0). -/
theorem visualRect_rows123_layout_witness :
    ¬ (QRect.containsPt (visualRect sampleViewState (.child 0 1)) 0 0 ∧
        QRect.containsPt (visualRect sampleViewState (.child 0 2)) 0 0) :=
  (visualRect_rows123_layout sampleViewState 0).2.2.1.1 0 0

/-- `setHotSpot` keeps hotspot ids unique: with an already-used id it only
updates the position, otherwise it appends a fresh id. -/
theorem setHotSpot_keeps_unique (s : RulerState) (position : Rat) (id : Int)
    (h : hotSpotIdsUnique s) : hotSpotIdsUnique (setHotSpot s position id) := by
  unfold hotSpotIdsUnique setHotSpot at *
  split
  case isTrue hin =>
    simp only
    rw [List.map_map]
    rw [show s.hotSpots.map
        (HotSpot.id ∘ fun h => if h.id == id then { h with position := position } else h) =
        s.hotSpots.map HotSpot.id from
      List.map_congr_left fun a _ => by dsimp only [Function.comp]; split <;> rfl]
    exact h
  case isFalse hout =>
    simp only [List.map_append, List.map_cons, List.map_nil]
    rw [List.nodup_append]
    refine ⟨h, List.nodup_singleton _, ?_⟩
    intro a ha hb
    simp only [List.mem_singleton] at hb
    subst hb
    simp only [List.mem_map] at ha
    obtain ⟨x, hx, hxid⟩ := ha
    exact hout (List.any_eq_true.mpr ⟨x, hx, by simp [hxid]⟩)

/-- Every `KoRuler` call preserves uniqueness of the hotspot ids. -/
theorem applyOp_keeps_unique (s : RulerState) (op : RulerOp)
    (h : hotSpotIdsUnique s) : hotSpotIdsUnique (applyOp s op) := by
  cases op with
  | setHotSpot position id => exact setHotSpot_keeps_unique s position id h
  | removeHotSpot id =>
      exact ((List.filter_sublist s.hotSpots).map HotSpot.id).nodup h
  | clearHotSpots => simp [hotSpotIdsUnique, applyOp, clearHotSpots]
  | updateTabs tabs tabDistance => exact h

/-- Uniqueness is preserved along any call sequence. -/
theorem foldl_applyOp_keeps_unique (ops : List RulerOp) :
    ∀ s : RulerState, hotSpotIdsUnique s → hotSpotIdsUnique (ops.foldl applyOp s) := by
  induction ops with
  | nil => exact fun s h => h
  | cons op ops ih => exact fun s h => ih _ (applyOp_keeps_unique s op h)

/-- C9: after any sequence of `setHotSpot`, `removeHotSpot`, `clearHotSpots`
and `updateTabs` calls no two hotspots in the hotspot list share an id, and
`setHotSpot` with an already-used id updates that hotspot in place rather
than adding a second one (the id list and the list length are unchanged). -/
theorem koRuler_hotspot_ids_unique :
    (∀ ops : List RulerOp, hotSpotIdsUnique (runOps ops)) ∧
    (∀ (s : RulerState) (position : Rat) (id : Int),
        s.hotSpots.any (fun h => h.id == id) = true →
        (setHotSpot s position id).hotSpots.map HotSpot.id =
            s.hotSpots.map HotSpot.id ∧
          (setHotSpot s position id).hotSpots.length = s.hotSpots.length) := by
  constructor
  · intro ops
    exact foldl_applyOp_keeps_unique ops initialRulerState
      (by simp [hotSpotIdsUnique, initialRulerState])
  · intro s position id hin
    unfold setHotSpot
    rw [if_pos hin]
    constructor
    · rw [List.map_map]
      exact List.map_congr_left fun a _ => by
        dsimp only [Function.comp]; split <;> rfl
    · simp

/-- A ruler state holding one hotspot with id 5. -/
def sampleRulerState : RulerState := ⟨[⟨5, 1⟩], [], 0⟩

/-- Witness for C9: a concrete call sequence ends with unique ids, and a
`setHotSpot` on the used id 5 leaves the id list and length unchanged. -/
theorem koRuler_hotspot_ids_unique_witness :
    hotSpotIdsUnique (runOps
      [.setHotSpot 1 5, .setHotSpot 2 5, .setHotSpot 3 7, .removeHotSpot 7]) ∧
    (sampleRulerState.hotSpots.any (fun h => h.id == 5) = true ∧
      (setHotSpot sampleRulerState 2 5).hotSpots.map HotSpot.id =
          sampleRulerState.hotSpots.map HotSpot.id ∧
        (setHotSpot sampleRulerState 2 5).hotSpots.length =
          sampleRulerState.hotSpots.length) :=
  ⟨koRuler_hotspot_ids_unique.1 _,
    by decide,
    koRuler_hotspot_ids_unique.2 sampleRulerState 2 5 (by decide)⟩

/-- C10: each notification signal is emitted exactly on its user drag
interaction — `indentsChanged` when an indent is moved, `tabChanged` when a
tab is moved, deleted (tab `none`) or inserted (original index −1),
`hotSpotChanged` when a hotspot is dragged, `guideLineCreated` when the mouse
is drag-released outside the ruler — and a mere accessor/mutator call emits
no signal. -/
theorem koRuler_signal_emission :
    (∀ op : RulerOp, emittedSignals (.accessorOrMutatorCall op) = []) ∧
    (∀ final : Bool, emittedSignals (.dragIndent final) = [.indentsChanged final]) ∧
    (∀ (i : Int) (t : Tab),
        emittedSignals (.dragMoveTab i t) = [.tabChanged i (some t)]) ∧
    (∀ i : Int, emittedSignals (.dragDeleteTab i) = [.tabChanged i none]) ∧
    (∀ t : Tab, emittedSignals (.dragInsertTab t) = [.tabChanged (-1) (some t)]) ∧
    (∀ (id : Int) (newPosition : Rat),
        emittedSignals (.dragHotSpot id newPosition) =
          [.hotSpotChanged id newPosition]) ∧
    (∀ (o : QtOrientation) (v : Rat),
        emittedSignals (.dragReleaseOutsideRuler o v) = [.guideLineCreated o v]) :=
  ⟨fun _ => rfl, fun _ => rfl, fun _ _ => rfl, fun _ => rfl, fun _ => rfl,
    fun _ _ => rfl, fun _ _ => rfl⟩
